import Mathlib

/-!
Shallow embedding of the phonon-client remote pairing client
(`remote/client.go`) and of the BTC validator (`validator/btc.go`).

Bytes are modelled as `List Nat`, wire payloads as byte lists, and the
external collaborators (the hardware session from the `card` package, the
certificate parser from the `cert` package, and `ecdsa.Verify` from the Go
standard library) as an environment record of pure functions.  The Go
channels of the `RemoteConnection` struct are buffered single-producer
queues; they are embedded as lists, where the dispatch loop appends and a
waiting caller pops the head.  A caller-initiated exchange is embedded as:
mutate state and append the outbound request, run the dispatch loop on the
list of messages that arrive during the wait window (the inbox), then
inspect the corresponding queue; an empty queue at the end of the window is
exactly the 10-second timeout branch of the Go `select`.
-/

namespace PhononClient

/-- Wire envelope tags, from `remote` package message names.
`UnknownTag` stands for any tag outside the fixed enumerated set. -/
inductive MsgName where
  | RequestCertificate
  | ResponseCertificate
  | RequestIdentify
  | ResponseIdentify
  | MessageError
  | MessageIdentifiedWithServer
  | MessageConnectedToCard
  | RequestCardPair1
  | ResponseCardPair1
  | RequestFinalizeCardPair
  | ResponseFinalizeCardPair
  | MessagePhononAck
  | RequestReceivePhonon
  | RequestConnectCard2Card
  | UnknownTag
  deriving DecidableEq, Repr

/-- The wire envelope `Message { Name, Payload }`. -/
structure Message where
  name : MsgName
  payload : List Nat
  deriving DecidableEq, Repr

/-- Errors returned by the exchange methods: the shared `ErrTimeout`
variable, or an error built from a peer-supplied payload text
(`errors.New(string(errorbytes))` in `FinalizeCardPair`). -/
inductive RemoteErr where
  | ErrTimeout
  | protocolError (text : List Nat)
  deriving DecidableEq, Repr

/-- An ECDSA public key, abstracted to an identifier. -/
abbrev PubKey := Nat

/-- An ECDSA signature, the pair (R, S). -/
abbrev Sig := Nat × Nat

/-- The external collaborators of `RemoteConnection`, as pure functions:
the local hardware `card.Session` capabilities, the certificate parser of
the `cert` package, and ECDSA signature verification.  `none` results
model a Go non-nil error return; error texts are byte lists. -/
structure Env where
  /-- `ecdsa.Verify(key, hash, R, S)`. -/
  verify : PubKey → List Nat → Sig → Bool
  /-- `cert.ParseRawCardCertificate`; a parsed certificate is abstracted
  to an identifier. -/
  parseCert : List Nat → Option Nat
  /-- `session.GetCertificate()` followed by `.Serialize()`:
  the serialized local certificate, or an error. -/
  sessionGetCertificate : Option (List Nat)
  /-- `session.IdentifyCard(nonce)` returning (public key, signature). -/
  sessionIdentifyCard : List Nat → Option (PubKey × Sig)
  /-- `session.CardPair(payload)` returning the local pairing payload. -/
  sessionCardPair : List Nat → Option (List Nat)
  /-- `session.FinalizeCardPair(payload)`: `none` on success,
  `some errorText` on failure. -/
  sessionFinalizeCardPair : List Nat → Option (List Nat)
  /-- `session.ReceivePhonons(payload)`: `none` on success. -/
  sessionReceivePhonons : List Nat → Option (List Nat)

/-- The mutable state of a `RemoteConnection`, together with the part of
the bound `card.Session` this package writes (`session.RemoteCard`) and
the observable transport effects (sent messages, stream closed).
`remoteCardBound` is true when `session.RemoteCard` has been set to this
connection.  The `...Chan` fields embed the buffered channels. -/
structure ConnState where
  remoteCertificate : Option Nat
  identifiedWithServer : Bool
  counterpartyNonce : List Nat
  verified : Bool
  pairFinalized : Bool
  remoteCardBound : Bool
  streamClosed : Bool
  identifiedWithServerChan : List Bool
  connectedToCardChan : List Bool
  remoteCertificateChan : List Nat
  remoteIdentityChan : List (List Nat)
  cardPair1DataChan : List (List Nat)
  finalizeCardPairDataChan : List (List Nat)
  phononAckChan : List Bool
  sentMessages : List Message
  deriving DecidableEq, Repr

/-- The state `Connect` hands back: all channels empty, all flags false,
nothing cached, the nonce array zeroed. -/
def initialState : ConnState where
  remoteCertificate := none
  identifiedWithServer := false
  counterpartyNonce := List.replicate 32 0
  verified := false
  pairFinalized := false
  remoteCardBound := false
  streamClosed := false
  identifiedWithServerChan := []
  connectedToCardChan := []
  remoteCertificateChan := []
  remoteIdentityChan := []
  cardPair1DataChan := []
  finalizeCardPairDataChan := []
  phononAckChan := []
  sentMessages := []

/-- `sendMessage(messageName, messagePayload)`: encode and write one
envelope to the stream. -/
def sendMessage (name : MsgName) (payload : List Nat) (s : ConnState) : ConnState :=
  { s with sentMessages := s.sentMessages ++ [⟨name, payload⟩] }

/-- Modelled from the spec: `card.ParseIdentifyCardResponse` of the
`card` package (not part of the sources at hand) parses an
identify-response payload into an ECDSA public key and a signature; its
expected payload format therefore carries both, here as the three-element
list key, R, S. -/
def ParseIdentifyCardResponse (bs : List Nat) : Option (PubKey × Sig) :=
  match bs with
  | [k, r, s] => some (k, (r, s))
  | _ => none

/-- The gob encoding of an `ecdsa.Signature` produced by `sendIdentify`:
it serializes the fields R and S of the signature and nothing else. -/
def gobEncodeSignature (sig : Sig) : List Nat :=
  [sig.1, sig.2]

/-- `sendCertificate`: fetch the local certificate from the session (on
error only a log is emitted and the zero certificate, serialized to
nothing, is still sent) and reply with its serialized form. -/
def sendCertificate (env : Env) (_msg : Message) (s : ConnState) : ConnState :=
  match env.sessionGetCertificate with
  | some certBytes => sendMessage .ResponseCertificate certBytes s
  | none => sendMessage .ResponseCertificate [] s

/-- `sendIdentify`: ask the session to sign the received nonce; on error
log and return, otherwise gob-encode the signature (the public key, the
first return value, is discarded) and reply. -/
def sendIdentify (env : Env) (msg : Message) (s : ConnState) : ConnState :=
  match env.sessionIdentifyCard msg.payload with
  | none => s
  | some (_, sig) => sendMessage .ResponseIdentify (gobEncodeSignature sig) s

/-- `processIdentify`: parse the identify-response; on parse failure log
and return; verify the signature against the stored counterparty nonce;
on failure log and return, on success set `verified`. -/
def processIdentify (env : Env) (msg : Message) (s : ConnState) : ConnState :=
  match ParseIdentifyCardResponse msg.payload with
  | none => s
  | some (key, sig) =>
    if env.verify key s.counterpartyNonce sig then { s with verified := true } else s

/-- `processCardPair1`: delegate the peer payload to `session.CardPair`
(on error only a log is emitted and the zero-value payload is still sent)
and reply with the resulting payload. -/
def processCardPair1 (env : Env) (msg : Message) (s : ConnState) : ConnState :=
  sendMessage .ResponseCardPair1 ((env.sessionCardPair msg.payload).getD []) s

/-- `processFinalizeCardPair`: delegate to `session.FinalizeCardPair`; on
failure reply with the error text; on success reply with an empty
payload, set `pairFinalized` and bind `session.RemoteCard` to this
connection. -/
def processFinalizeCardPair (env : Env) (msg : Message) (s : ConnState) : ConnState :=
  match env.sessionFinalizeCardPair msg.payload with
  | some errText => sendMessage .ResponseFinalizeCardPair errText s
  | none =>
    let s1 := sendMessage .ResponseFinalizeCardPair [] s
    { s1 with pairFinalized := true, remoteCardBound := true }

/-- `processReceivePhonons`: delegate to `session.ReceivePhonons`; on
error log and send nothing; on success reply with a phonon-ack. -/
def processReceivePhonons (env : Env) (msg : Message) (s : ConnState) : ConnState :=
  match env.sessionReceivePhonons msg.payload with
  | some _ => s
  | none => sendMessage .MessagePhononAck [] s

/-- `receiveCertificate`: parse the raw certificate; on error log and
return; otherwise deliver it on the certificate channel and cache it. -/
def receiveCertificate (env : Env) (msg : Message) (s : ConnState) : ConnState :=
  match env.parseCert msg.payload with
  | none => s
  | some c =>
    { s with remoteCertificateChan := s.remoteCertificateChan ++ [c],
             remoteCertificate := some c }

/-- The dispatch switch `process(msg)`: route one inbound envelope to its
handler; unknown tags fall through the switch with no effect. -/
def process (env : Env) (msg : Message) (s : ConnState) : ConnState :=
  match msg.name with
  | .RequestCertificate => sendCertificate env msg s
  | .ResponseCertificate => receiveCertificate env msg s
  | .RequestIdentify => sendIdentify env msg s
  | .ResponseIdentify => processIdentify env msg s
  | .MessageError => s
  | .MessageIdentifiedWithServer =>
    { s with identifiedWithServerChan := s.identifiedWithServerChan ++ [true],
             identifiedWithServer := true }
  | .MessageConnectedToCard =>
    { s with connectedToCardChan := s.connectedToCardChan ++ [true] }
  | .RequestCardPair1 => processCardPair1 env msg s
  | .ResponseCardPair1 =>
    { s with cardPair1DataChan := s.cardPair1DataChan ++ [msg.payload] }
  | .RequestFinalizeCardPair => processFinalizeCardPair env msg s
  | .ResponseFinalizeCardPair =>
    { s with finalizeCardPairDataChan := s.finalizeCardPairDataChan ++ [msg.payload] }
  | .MessagePhononAck => { s with phononAckChan := s.phononAckChan ++ [true] }
  | .RequestReceivePhonon => processReceivePhonons env msg s
  | .RequestConnectCard2Card => s
  | .UnknownTag => s

/-- The dispatch loop over the envelopes arriving in a wait window, in
arrival order. -/
def processMsgs (env : Env) (msgs : List Message) (s : ConnState) : ConnState :=
  msgs.foldl (fun st m => process env m st) s

/-!
Caller-initiated exchanges.  Each takes the inbox of messages the
dispatch loop handles during the wait window; an unfilled delivery queue
after the window is the `time.After(10 * time.Second)` branch.
-/

/-- `Identify()`: store the fresh 32-byte nonce as the expected
counterparty challenge, send the identify-request, then wait on
`remoteIdentityChan` with the 10-second timeout. -/
def Identify (env : Env) (nonce : List Nat) (inbox : List Message)
    (s : ConnState) : ConnState × Except RemoteErr Unit :=
  let s1 := sendMessage .RequestIdentify nonce { s with counterpartyNonce := nonce }
  let s2 := processMsgs env inbox s1
  match s2.remoteIdentityChan with
  | [] => (s2, .error .ErrTimeout)
  | _ :: rest => ({ s2 with remoteIdentityChan := rest }, .ok ())

/-- `CardPair(initPairingData)`: send the phase-1 request and wait on
`cardPair1DataChan`; on timeout return the empty payload and
`ErrTimeout`. -/
def CardPair (env : Env) (initPairingData : List Nat) (inbox : List Message)
    (s : ConnState) : ConnState × Except RemoteErr (List Nat) :=
  let s1 := sendMessage .RequestCardPair1 initPairingData s
  let s2 := processMsgs env inbox s1
  match s2.cardPair1DataChan with
  | [] => (s2, .error .ErrTimeout)
  | d :: rest => ({ s2 with cardPair1DataChan := rest }, .ok d)

/-- `FinalizeCardPair(cardPair2Data)`: send the finalize-pair request;
when `pairFinalized` is not yet set wait on `finalizeCardPairDataChan`,
treating a non-empty payload as the peer error message and an empty one
as success, with the 10-second timeout; when `pairFinalized` is already
set skip the wait, set the flag and bind `session.RemoteCard`, and return
success. -/
def FinalizeCardPair (env : Env) (cardPair2Data : List Nat) (inbox : List Message)
    (s : ConnState) : ConnState × Except RemoteErr Unit :=
  let s1 := sendMessage .RequestFinalizeCardPair cardPair2Data s
  if !s1.pairFinalized then
    let s2 := processMsgs env inbox s1
    match s2.finalizeCardPairDataChan with
    | [] => (s2, .error .ErrTimeout)
    | errorbytes :: rest =>
      let s3 := { s2 with finalizeCardPairDataChan := rest }
      if errorbytes.length > 0 then (s3, .error (.protocolError errorbytes))
      else (s3, .ok ())
  else
    ({ s1 with pairFinalized := true, remoteCardBound := true }, .ok ())

/-- `GetCertificate()`: when a peer certificate is cached return it with
no wire traffic; otherwise send a certificate-request, wait on
`remoteCertificateChan` with the 10-second timeout, and cache the
delivered certificate. -/
def GetCertificate (env : Env) (inbox : List Message)
    (s : ConnState) : ConnState × Except RemoteErr Nat :=
  match s.remoteCertificate with
  | some c => (s, .ok c)
  | none =>
    let s1 := sendMessage .RequestCertificate [] s
    let s2 := processMsgs env inbox s1
    match s2.remoteCertificateChan with
    | [] => (s2, .error .ErrTimeout)
    | c :: rest =>
      ({ s2 with remoteCertificateChan := rest, remoteCertificate := some c }, .ok c)

/-- `ConnectToCard(cardID)`: when not yet identified with the server,
first wait on `identifiedWithServerChan` (inbox `inbox1`) with the
10-second timeout; then send the connect-to-card request and wait on
`connectedToCardChan` (inbox `inbox2`); on that second timeout close the
underlying stream and return `ErrTimeout`. -/
def ConnectToCard (env : Env) (cardID : List Nat) (inbox1 inbox2 : List Message)
    (s : ConnState) : ConnState × Except RemoteErr Unit :=
  let phase2 := fun (t : ConnState) =>
    let t1 := sendMessage .RequestConnectCard2Card cardID t
    let t2 := processMsgs env inbox2 t1
    match t2.connectedToCardChan with
    | [] => ({ t2 with streamClosed := true }, .error .ErrTimeout)
    | _ :: rest => ({ t2 with connectedToCardChan := rest }, .ok ())
  if !s.identifiedWithServer then
    let s1 := processMsgs env inbox1 s
    match s1.identifiedWithServerChan with
    | [] => (s1, .error .ErrTimeout)
    | _ :: rest => phase2 { s1 with identifiedWithServerChan := rest }
  else
    phase2 s

/-- `ReceivePhonons(PhononTransfer)`: send the phonon-receive request and
wait on `phononAckChan` with the 10-second timeout. -/
def ReceivePhonons (env : Env) (transfer : List Nat) (inbox : List Message)
    (s : ConnState) : ConnState × Except RemoteErr Unit :=
  let s1 := sendMessage .RequestReceivePhonon transfer s
  let s2 := processMsgs env inbox s1
  match s2.phononAckChan with
  | [] => (s2, .error .ErrTimeout)
  | _ :: rest => ({ s2 with phononAckChan := rest }, .ok ())

/-- One step of an execution on a connection: either the dispatch loop
handles one inbound envelope, or the caller runs one exchange. -/
inductive Step where
  | inbound (msg : Message)
  | identify (nonce : List Nat) (inbox : List Message)
  | cardPair (d : List Nat) (inbox : List Message)
  | finalizeCardPair (d : List Nat) (inbox : List Message)
  | getCertificate (inbox : List Message)
  | connectToCard (id : List Nat) (inbox1 inbox2 : List Message)
  | receivePhonons (d : List Nat) (inbox : List Message)

/-- The state effect of one step. -/
def stepState (env : Env) (s : ConnState) : Step → ConnState
  | .inbound m => process env m s
  | .identify n inbox => (Identify env n inbox s).1
  | .cardPair d inbox => (CardPair env d inbox s).1
  | .finalizeCardPair d inbox => (FinalizeCardPair env d inbox s).1
  | .getCertificate inbox => (GetCertificate env inbox s).1
  | .connectToCard id inbox1 inbox2 => (ConnectToCard env id inbox1 inbox2 s).1
  | .receivePhonons d inbox => (ReceivePhonons env d inbox s).1

/-- An execution: the state effects of a sequence of steps. -/
def runSteps (env : Env) (steps : List Step) (s : ConnState) : ConnState :=
  steps.foldl (stepState env) s

end PhononClient

namespace BTCValidator

/-- A transaction output: `{ value, address }`. -/
structure Output where
  value : Int
  address : String
  deriving DecidableEq, Repr

/-- The coin consumed by a transaction input: `{ value, address }`. -/
structure Coin where
  value : Int
  address : String
  deriving DecidableEq, Repr

/-- A transaction input, wrapping its coin. -/
structure TxInput where
  coin : Coin
  deriving DecidableEq, Repr

/-- One entry of `transactionList`: hash, inputs, outputs. -/
structure Transaction where
  hash : String
  inputs : List TxInput
  outputs : List Output
  deriving DecidableEq, Repr

/-- The fields of `model.Phonon` the validator touches: the public key
(abstracted to an identifier) and the value stated on the phonon. -/
structure Phonon where
  pubKey : Nat
  value : Int
  deriving DecidableEq, Repr

/-- `aggregateTransactions(txl, addresses)`: walk every transaction,
subtracting the coin value of every input whose coin address is one of
the derived addresses and adding the value of every output paying one of
them, starting from a running total of zero. -/
def aggregateTransactions (txl : List Transaction) (addresses : List String) : Int :=
  txl.foldl
    (fun total tx =>
      let afterInputs := tx.inputs.foldl
        (fun t input =>
          addresses.foldl
            (fun t2 address =>
              if input.coin.address = address then t2 - input.coin.value else t2)
            t)
        total
      tx.outputs.foldl
        (fun t output =>
          addresses.foldl
            (fun t2 address =>
              if output.address = address then t2 + output.value else t2)
            t)
        afterInputs)
    0

/-- `Validate(phonon)`: derive the address forms of the phonon public key
(`pubKeyToAddresses`, delegated to the btcutil library and abstracted
here as a function argument), aggregate the transactions the indexing
service returns for them into a balance, and answer false when that
balance is zero and true otherwise. -/
def Validate (pubKeyToAddresses : Nat → List String) (txs : List Transaction)
    (phonon : Phonon) : Bool :=
  let addresses := pubKeyToAddresses phonon.pubKey
  let balance := aggregateTransactions txs addresses
  if balance = 0 then false else true

/-- The validator capability as the spec words it: backed exactly when
the aggregate balance controlled by the key is at least the value stated
on the phonon.  Stated for comparison with `Validate`. -/
def ValidateSpec (pubKeyToAddresses : Nat → List String) (txs : List Transaction)
    (phonon : Phonon) : Bool :=
  phonon.value ≤ aggregateTransactions txs (pubKeyToAddresses phonon.pubKey)

end BTCValidator

namespace PhononClient

/-!
Helper lemmas shared by the claim theorems.
-/

@[simp] theorem sendMessage_remoteCertificate (n : MsgName) (p : List Nat) (s : ConnState) :
    (sendMessage n p s).remoteCertificate = s.remoteCertificate := rfl

@[simp] theorem sendMessage_identifiedWithServer (n : MsgName) (p : List Nat) (s : ConnState) :
    (sendMessage n p s).identifiedWithServer = s.identifiedWithServer := rfl

@[simp] theorem sendMessage_counterpartyNonce (n : MsgName) (p : List Nat) (s : ConnState) :
    (sendMessage n p s).counterpartyNonce = s.counterpartyNonce := rfl

@[simp] theorem sendMessage_verified (n : MsgName) (p : List Nat) (s : ConnState) :
    (sendMessage n p s).verified = s.verified := rfl

@[simp] theorem sendMessage_pairFinalized (n : MsgName) (p : List Nat) (s : ConnState) :
    (sendMessage n p s).pairFinalized = s.pairFinalized := rfl

@[simp] theorem sendMessage_remoteCardBound (n : MsgName) (p : List Nat) (s : ConnState) :
    (sendMessage n p s).remoteCardBound = s.remoteCardBound := rfl

@[simp] theorem sendMessage_streamClosed (n : MsgName) (p : List Nat) (s : ConnState) :
    (sendMessage n p s).streamClosed = s.streamClosed := rfl

@[simp] theorem sendMessage_identifiedWithServerChan (n : MsgName) (p : List Nat) (s : ConnState) :
    (sendMessage n p s).identifiedWithServerChan = s.identifiedWithServerChan := rfl

@[simp] theorem sendMessage_connectedToCardChan (n : MsgName) (p : List Nat) (s : ConnState) :
    (sendMessage n p s).connectedToCardChan = s.connectedToCardChan := rfl

@[simp] theorem sendMessage_remoteCertificateChan (n : MsgName) (p : List Nat) (s : ConnState) :
    (sendMessage n p s).remoteCertificateChan = s.remoteCertificateChan := rfl

@[simp] theorem sendMessage_remoteIdentityChan (n : MsgName) (p : List Nat) (s : ConnState) :
    (sendMessage n p s).remoteIdentityChan = s.remoteIdentityChan := rfl

@[simp] theorem sendMessage_cardPair1DataChan (n : MsgName) (p : List Nat) (s : ConnState) :
    (sendMessage n p s).cardPair1DataChan = s.cardPair1DataChan := rfl

@[simp] theorem sendMessage_finalizeCardPairDataChan (n : MsgName) (p : List Nat) (s : ConnState) :
    (sendMessage n p s).finalizeCardPairDataChan = s.finalizeCardPairDataChan := rfl

@[simp] theorem sendMessage_phononAckChan (n : MsgName) (p : List Nat) (s : ConnState) :
    (sendMessage n p s).phononAckChan = s.phononAckChan := rfl

@[simp] theorem sendMessage_sentMessages (n : MsgName) (p : List Nat) (s : ConnState) :
    (sendMessage n p s).sentMessages = s.sentMessages ++ [⟨n, p⟩] := rfl

/-- No branch of the dispatch switch writes to `remoteIdentityChan`. -/
theorem process_remoteIdentityChan (env : Env) (m : Message) (s : ConnState) :
    (process env m s).remoteIdentityChan = s.remoteIdentityChan := by
  rcases m with ⟨name, payload⟩
  cases name <;>
    simp only [process, sendCertificate, receiveCertificate, sendIdentify,
      processIdentify, processCardPair1, processFinalizeCardPair,
      processReceivePhonons] <;>
    (try split) <;> (try split) <;> simp

@[simp] theorem processMsgs_nil (env : Env) (s : ConnState) :
    processMsgs env [] s = s := rfl

@[simp] theorem processMsgs_cons (env : Env) (m : Message) (ms : List Message) (s : ConnState) :
    processMsgs env (m :: ms) s = processMsgs env ms (process env m s) := rfl

/-- The dispatch loop never writes to `remoteIdentityChan`. -/
theorem processMsgs_remoteIdentityChan (env : Env) (msgs : List Message) :
    ∀ s : ConnState, (processMsgs env msgs s).remoteIdentityChan = s.remoteIdentityChan := by
  induction msgs with
  | nil => intro s; rfl
  | cons m ms ih =>
    intro s
    rw [processMsgs_cons, ih, process_remoteIdentityChan]

/-- No step of an execution can leave a value in `remoteIdentityChan`. -/
theorem stepState_remoteIdentityChan_nil (env : Env) (s : ConnState) (st : Step)
    (h : s.remoteIdentityChan = []) :
    (stepState env s st).remoteIdentityChan = [] := by
  cases st <;>
    simp only [stepState, Identify, CardPair, FinalizeCardPair, GetCertificate,
      ConnectToCard, ReceivePhonons] <;>
    (try split) <;> (try split) <;>
    simp [processMsgs_remoteIdentityChan, process_remoteIdentityChan, h] <;>
    (try split) <;>
    simp_all [processMsgs_remoteIdentityChan]

/-- Reachable states of an execution keep `remoteIdentityChan` empty. -/
theorem runSteps_remoteIdentityChan_nil (env : Env) (steps : List Step) :
    ∀ s : ConnState, s.remoteIdentityChan = [] →
      (runSteps env steps s).remoteIdentityChan = [] := by
  induction steps with
  | nil => intro s h; exact h
  | cons st sts ih =>
    intro s h
    exact ih _ (stepState_remoteIdentityChan_nil env s st h)

/-- Claim C2: in every execution from a fresh connection, `Identify`
returns the Timeout error after its wait regardless of the peer
behaviour: no branch of the dispatch switch delivers into
`remoteIdentityChan` (a well-formed identify-response only sets
`verified` as a side effect), so `Identify` never returns success. -/
theorem c2_identify_always_times_out (env : Env) (steps : List Step)
    (nonce : List Nat) (inbox : List Message) :
    (Identify env nonce inbox (runSteps env steps initialState)).2 =
      Except.error RemoteErr.ErrTimeout := by
  have h0 : (runSteps env steps initialState).remoteIdentityChan = [] :=
    runSteps_remoteIdentityChan_nil env steps initialState rfl
  have h2 :
      (processMsgs env inbox
        (sendMessage .RequestIdentify nonce
          { runSteps env steps initialState with counterpartyNonce := nonce })).remoteIdentityChan
        = [] := by
    rw [processMsgs_remoteIdentityChan, sendMessage_remoteIdentityChan]
    exact h0
  simp only [Identify]
  rw [h2]

/-!
Concrete environments used to evaluate the code at specific inputs.
-/

/-- A concrete environment whose signature check accepts exactly the key
7 with signature (3, 4) over the nonce [5]. -/
def envV : Env where
  verify := fun k n sg => decide (k = 7 ∧ n = [5] ∧ sg = (3, 4))
  parseCert := fun _ => none
  sessionGetCertificate := none
  sessionIdentifyCard := fun _ => none
  sessionCardPair := fun _ => none
  sessionFinalizeCardPair := fun _ => none
  sessionReceivePhonons := fun _ => none

/-- The state of a requester that has stored the nonce [5] as its
outstanding identify challenge. -/
def sIdent : ConnState :=
  { initialState with counterpartyNonce := [5] }

/-- Claim C1, evaluated at its failing input: processing an
identify-response whose signature does not verify ((3, 9) instead of
(3, 4)) leaves the connection state completely unchanged — `verified`
stays false and nothing is sent or delivered to the caller, the failure
is only logged — and the caller of `Identify` receives the same
`ErrTimeout` for the invalid response as for the valid one, so no hard
failure distinguishing the verification outcome is surfaced, while
`verified` itself does track signature validity. -/
theorem c1_verification_failure_only_logged :
    process envV ⟨.ResponseIdentify, [7, 3, 9]⟩ sIdent = sIdent ∧
    (Identify envV [5] [⟨.ResponseIdentify, [7, 3, 9]⟩] initialState).2 =
      Except.error RemoteErr.ErrTimeout ∧
    (Identify envV [5] [⟨.ResponseIdentify, [7, 3, 4]⟩] initialState).2 =
      Except.error RemoteErr.ErrTimeout ∧
    (Identify envV [5] [⟨.ResponseIdentify, [7, 3, 4]⟩] initialState).1.verified = true ∧
    (Identify envV [5] [⟨.ResponseIdentify, [7, 3, 9]⟩] initialState).1.verified = false :=
  ⟨rfl, rfl, rfl, rfl, rfl⟩

/-- A connection that has already finalized pairing (as responder). -/
def sPaired : ConnState :=
  { initialState with pairFinalized := true }

/-- A concrete environment whose session finalize step fails with the
error text [9]. -/
def envF : Env where
  verify := fun _ _ _ => false
  parseCert := fun _ => none
  sessionGetCertificate := none
  sessionIdentifyCard := fun _ => none
  sessionCardPair := fun _ => none
  sessionFinalizeCardPair := fun _ => some [9]
  sessionReceivePhonons := fun _ => none

/-- Claim C5: the initiator `FinalizeCardPair` returns success at once,
for any inbox, when `pairFinalized` already holds; otherwise it awaits
the finalize-pair response and returns success on an empty payload, an
error carrying the peer message on a non-empty payload, and `ErrTimeout`
when nothing arrives in the window. -/
theorem c5_finalize_card_pair_outcomes (env : Env) (d e : List Nat)
    (inbox : List Message) (s : ConnState) :
    (s.pairFinalized = true →
      (FinalizeCardPair env d inbox s).2 = Except.ok ()) ∧
    (s.pairFinalized = false → s.finalizeCardPairDataChan = [] →
      (FinalizeCardPair env d [⟨.ResponseFinalizeCardPair, []⟩] s).2 = Except.ok ()) ∧
    (s.pairFinalized = false → s.finalizeCardPairDataChan = [] → e ≠ [] →
      (FinalizeCardPair env d [⟨.ResponseFinalizeCardPair, e⟩] s).2 =
        Except.error (RemoteErr.protocolError e)) ∧
    (s.pairFinalized = false → s.finalizeCardPairDataChan = [] →
      (FinalizeCardPair env d [] s).2 = Except.error RemoteErr.ErrTimeout) := by
  refine ⟨fun h => ?_, fun h hc => ?_, fun h hc he => ?_, fun h hc => ?_⟩
  · simp [FinalizeCardPair, h]
  · simp [FinalizeCardPair, h, process, hc]
  · have hl : 0 < e.length := List.length_pos.mpr he
    simp [FinalizeCardPair, h, process, hc, hl]
  · simp [FinalizeCardPair, h, hc]

/-- Witness for claim C5 at concrete inputs. -/
theorem c5_finalize_card_pair_outcomes_witness :
    (FinalizeCardPair envV [] [] sPaired).2 = Except.ok () ∧
    (FinalizeCardPair envV [] [⟨.ResponseFinalizeCardPair, []⟩] initialState).2 =
      Except.ok () ∧
    (FinalizeCardPair envV [] [⟨.ResponseFinalizeCardPair, [9]⟩] initialState).2 =
      Except.error (RemoteErr.protocolError [9]) ∧
    (FinalizeCardPair envV [] [] initialState).2 = Except.error RemoteErr.ErrTimeout :=
  ⟨(c5_finalize_card_pair_outcomes envV [] [9] [] sPaired).1 rfl,
   (c5_finalize_card_pair_outcomes envV [] [9] [] initialState).2.1 rfl rfl,
   (c5_finalize_card_pair_outcomes envV [] [9] [] initialState).2.2.1 rfl rfl (by decide),
   (c5_finalize_card_pair_outcomes envV [] [9] [] initialState).2.2.2 rfl rfl⟩

/-- Claim C4, counterexample: an initiator whose pairing is not yet
finalized sends the finalize-pair request, receives the empty-payload
success response, returns success — and `session.RemoteCard` is still
not bound to the connection, against the claim that the initiator path
leaves it bound. -/
theorem c4_initiator_leaves_remote_card_unbound :
    (FinalizeCardPair envV [] [⟨.ResponseFinalizeCardPair, []⟩] initialState).2 =
      Except.ok () ∧
    (FinalizeCardPair envV [] [⟨.ResponseFinalizeCardPair, []⟩] initialState).1.remoteCardBound
      = false ∧
    (FinalizeCardPair envV [] [⟨.ResponseFinalizeCardPair, []⟩] initialState).1.pairFinalized
      = false :=
  ⟨rfl, rfl, rfl⟩

/-- Claim C4 as amended: the responder path behaves as claimed (success
reply is empty, sets `pairFinalized`, binds `session.RemoteCard`;
failure replies with the error text and changes neither), and the
initiator binds `session.RemoteCard` only on the immediate path where
`pairFinalized` was already true; the initiator path that succeeds by
receiving the empty-payload response returns success without binding
`session.RemoteCard` or setting `pairFinalized`. -/
theorem c4_finalize_binding_amended (env : Env) (p et d : List Nat)
    (inbox : List Message) (s : ConnState) :
    (env.sessionFinalizeCardPair p = none →
      process env ⟨.RequestFinalizeCardPair, p⟩ s =
        { sendMessage .ResponseFinalizeCardPair [] s with
            pairFinalized := true, remoteCardBound := true }) ∧
    (env.sessionFinalizeCardPair p = some et →
      process env ⟨.RequestFinalizeCardPair, p⟩ s =
        sendMessage .ResponseFinalizeCardPair et s) ∧
    (s.pairFinalized = true →
      (FinalizeCardPair env d inbox s).2 = Except.ok () ∧
      (FinalizeCardPair env d inbox s).1.remoteCardBound = true) ∧
    (s.pairFinalized = false → s.finalizeCardPairDataChan = [] →
      (FinalizeCardPair env d [⟨.ResponseFinalizeCardPair, []⟩] s).2 = Except.ok () ∧
      (FinalizeCardPair env d [⟨.ResponseFinalizeCardPair, []⟩] s).1.remoteCardBound
        = s.remoteCardBound ∧
      (FinalizeCardPair env d [⟨.ResponseFinalizeCardPair, []⟩] s).1.pairFinalized
        = false) := by
  refine ⟨fun h => ?_, fun h => ?_, fun h => ?_, fun h hc => ?_⟩
  · simp [process, processFinalizeCardPair, h]
  · simp [process, processFinalizeCardPair, h]
  · simp [FinalizeCardPair, h]
  · simp [FinalizeCardPair, h, process, hc]

/-- Monotonicity of the three boolean connection flags and of the
`session.RemoteCard` binding between two states. -/
def flagsMono (s t : ConnState) : Prop :=
  (s.identifiedWithServer = true → t.identifiedWithServer = true) ∧
  (s.verified = true → t.verified = true) ∧
  (s.pairFinalized = true → t.pairFinalized = true) ∧
  (s.remoteCardBound = true → t.remoteCardBound = true)

theorem flagsMono_refl (s : ConnState) : flagsMono s s :=
  ⟨id, id, id, id⟩

theorem flagsMono_trans {a b c : ConnState}
    (h1 : flagsMono a b) (h2 : flagsMono b c) : flagsMono a c :=
  ⟨fun h => h2.1 (h1.1 h), fun h => h2.2.1 (h1.2.1 h),
   fun h => h2.2.2.1 (h1.2.2.1 h), fun h => h2.2.2.2 (h1.2.2.2 h)⟩

theorem flagsMono_of_eq {s t : ConnState}
    (h1 : t.identifiedWithServer = s.identifiedWithServer)
    (h2 : t.verified = s.verified) (h3 : t.pairFinalized = s.pairFinalized)
    (h4 : t.remoteCardBound = s.remoteCardBound) : flagsMono s t :=
  ⟨fun h => h1.trans h, fun h => h2.trans h, fun h => h3.trans h, fun h => h4.trans h⟩

/-- Every branch of the dispatch switch only ever raises the flags. -/
theorem process_flagsMono (env : Env) (m : Message) (s : ConnState) :
    flagsMono s (process env m s) := by
  rcases m with ⟨name, payload⟩
  cases name <;>
    simp only [process, sendCertificate, receiveCertificate, sendIdentify,
      processIdentify, processCardPair1, processFinalizeCardPair,
      processReceivePhonons] <;>
    (try split) <;> (try split) <;>
    (refine ⟨fun h => ?_, fun h => ?_, fun h => ?_, fun h => ?_⟩ <;>
      first
      | rfl
      | exact h)

/-- The dispatch loop only ever raises the flags. -/
theorem processMsgs_flagsMono (env : Env) (msgs : List Message) :
    ∀ s : ConnState, flagsMono s (processMsgs env msgs s) := by
  induction msgs with
  | nil => intro s; exact flagsMono_refl s
  | cons m ms ih =>
    intro s
    exact flagsMono_trans (process_flagsMono env m s) (ih (process env m s))

theorem Identify_flagsMono (env : Env) (n : List Nat) (inbox : List Message)
    (s : ConnState) : flagsMono s (Identify env n inbox s).1 := by
  simp only [Identify]
  have hp := processMsgs_flagsMono env inbox
    (sendMessage .RequestIdentify n { s with counterpartyNonce := n })
  have h0 : flagsMono s (sendMessage .RequestIdentify n { s with counterpartyNonce := n }) :=
    flagsMono_of_eq rfl rfl rfl rfl
  split <;> exact flagsMono_trans (flagsMono_trans h0 hp) (flagsMono_of_eq rfl rfl rfl rfl)

theorem CardPair_flagsMono (env : Env) (d : List Nat) (inbox : List Message)
    (s : ConnState) : flagsMono s (CardPair env d inbox s).1 := by
  simp only [CardPair]
  have hp := processMsgs_flagsMono env inbox (sendMessage .RequestCardPair1 d s)
  have h0 : flagsMono s (sendMessage .RequestCardPair1 d s) :=
    flagsMono_of_eq rfl rfl rfl rfl
  split <;> exact flagsMono_trans (flagsMono_trans h0 hp) (flagsMono_of_eq rfl rfl rfl rfl)

theorem FinalizeCardPair_flagsMono (env : Env) (d : List Nat) (inbox : List Message)
    (s : ConnState) : flagsMono s (FinalizeCardPair env d inbox s).1 := by
  simp only [FinalizeCardPair]
  have hp := processMsgs_flagsMono env inbox (sendMessage .RequestFinalizeCardPair d s)
  have h0 : flagsMono s (sendMessage .RequestFinalizeCardPair d s) :=
    flagsMono_of_eq rfl rfl rfl rfl
  split
  · split
    · exact flagsMono_trans h0 hp
    · split <;>
        exact flagsMono_trans (flagsMono_trans h0 hp) (flagsMono_of_eq rfl rfl rfl rfl)
  · exact ⟨fun h => h, fun h => h, fun _ => rfl, fun _ => rfl⟩

theorem GetCertificate_flagsMono (env : Env) (inbox : List Message)
    (s : ConnState) : flagsMono s (GetCertificate env inbox s).1 := by
  simp only [GetCertificate]
  have hp := processMsgs_flagsMono env inbox (sendMessage .RequestCertificate [] s)
  have h0 : flagsMono s (sendMessage .RequestCertificate [] s) :=
    flagsMono_of_eq rfl rfl rfl rfl
  split
  · exact flagsMono_refl s
  · split <;> exact flagsMono_trans (flagsMono_trans h0 hp) (flagsMono_of_eq rfl rfl rfl rfl)

theorem ConnectToCard_flagsMono (env : Env) (id : List Nat)
    (inbox1 inbox2 : List Message) (s : ConnState) :
    flagsMono s (ConnectToCard env id inbox1 inbox2 s).1 := by
  have hsend : ∀ t : ConnState,
      flagsMono t (processMsgs env inbox2 (sendMessage .RequestConnectCard2Card id t)) :=
    fun t =>
      flagsMono_trans
        (@flagsMono_of_eq t (sendMessage .RequestConnectCard2Card id t) rfl rfl rfl rfl)
        (processMsgs_flagsMono env inbox2 (sendMessage .RequestConnectCard2Card id t))
  simp only [ConnectToCard]
  split
  · split
    · exact processMsgs_flagsMono env inbox1 s
    · rename_i hd rest heq
      have hT : flagsMono s
          { processMsgs env inbox1 s with identifiedWithServerChan := rest } :=
        flagsMono_trans (processMsgs_flagsMono env inbox1 s)
          (flagsMono_of_eq rfl rfl rfl rfl)
      refine flagsMono_trans (flagsMono_trans hT (hsend _)) ?_
      split <;> exact flagsMono_of_eq rfl rfl rfl rfl
  · refine flagsMono_trans (hsend s) ?_
    split <;> exact flagsMono_of_eq rfl rfl rfl rfl

theorem ReceivePhonons_flagsMono (env : Env) (d : List Nat) (inbox : List Message)
    (s : ConnState) : flagsMono s (ReceivePhonons env d inbox s).1 := by
  simp only [ReceivePhonons]
  have hp := processMsgs_flagsMono env inbox (sendMessage .RequestReceivePhonon d s)
  have h0 : flagsMono s (sendMessage .RequestReceivePhonon d s) :=
    flagsMono_of_eq rfl rfl rfl rfl
  split <;> exact flagsMono_trans (flagsMono_trans h0 hp) (flagsMono_of_eq rfl rfl rfl rfl)

/-- One step of an execution only ever raises the flags. -/
theorem stepState_flagsMono (env : Env) (s : ConnState) (st : Step) :
    flagsMono s (stepState env s st) := by
  cases st with
  | inbound m => exact process_flagsMono env m s
  | identify n inbox => exact Identify_flagsMono env n inbox s
  | cardPair d inbox => exact CardPair_flagsMono env d inbox s
  | finalizeCardPair d inbox => exact FinalizeCardPair_flagsMono env d inbox s
  | getCertificate inbox => exact GetCertificate_flagsMono env inbox s
  | connectToCard id inbox1 inbox2 => exact ConnectToCard_flagsMono env id inbox1 inbox2 s
  | receivePhonons d inbox => exact ReceivePhonons_flagsMono env d inbox s

/-- An execution only ever raises the flags. -/
theorem runSteps_flagsMono (env : Env) (steps : List Step) :
    ∀ s : ConnState, flagsMono s (runSteps env steps s) := by
  induction steps with
  | nil => intro s; exact flagsMono_refl s
  | cons st sts ih =>
    intro s
    exact flagsMono_trans (stepState_flagsMono env s st) (ih (stepState env s st))

/-- Claim C10: over every execution of operations and received messages
on a connection, the flags `identifiedWithServer`, `verified` and
`pairFinalized` are monotone — every write sets a flag to true and
nothing resets one — and once `pairFinalized` holds, the binding of
`session.RemoteCard` to this connection persists as well. -/
theorem c10_flags_monotone (env : Env) (steps : List Step) (s : ConnState) :
    (s.identifiedWithServer = true → (runSteps env steps s).identifiedWithServer = true) ∧
    (s.verified = true → (runSteps env steps s).verified = true) ∧
    (s.pairFinalized = true → (runSteps env steps s).pairFinalized = true) ∧
    (s.remoteCardBound = true → (runSteps env steps s).remoteCardBound = true) :=
  runSteps_flagsMono env steps s

/-- A connection with every flag raised and the remote card bound. -/
def sAllFlags : ConnState :=
  { initialState with
      identifiedWithServer := true
      verified := true
      pairFinalized := true
      remoteCardBound := true }

/-- Witness for claim C10 at a concrete execution. -/
theorem c10_flags_monotone_witness :
    (runSteps envV [Step.inbound ⟨.MessageError, []⟩,
        Step.finalizeCardPair [] [], Step.inbound ⟨.ResponseIdentify, [7, 3, 9]⟩]
      sAllFlags).identifiedWithServer = true ∧
    (runSteps envV [Step.inbound ⟨.MessageError, []⟩,
        Step.finalizeCardPair [] [], Step.inbound ⟨.ResponseIdentify, [7, 3, 9]⟩]
      sAllFlags).verified = true ∧
    (runSteps envV [Step.inbound ⟨.MessageError, []⟩,
        Step.finalizeCardPair [] [], Step.inbound ⟨.ResponseIdentify, [7, 3, 9]⟩]
      sAllFlags).pairFinalized = true ∧
    (runSteps envV [Step.inbound ⟨.MessageError, []⟩,
        Step.finalizeCardPair [] [], Step.inbound ⟨.ResponseIdentify, [7, 3, 9]⟩]
      sAllFlags).remoteCardBound = true :=
  ⟨(c10_flags_monotone envV [Step.inbound ⟨.MessageError, []⟩,
      Step.finalizeCardPair [] [], Step.inbound ⟨.ResponseIdentify, [7, 3, 9]⟩] sAllFlags).1 rfl,
   (c10_flags_monotone envV [Step.inbound ⟨.MessageError, []⟩,
      Step.finalizeCardPair [] [], Step.inbound ⟨.ResponseIdentify, [7, 3, 9]⟩] sAllFlags).2.1 rfl,
   (c10_flags_monotone envV [Step.inbound ⟨.MessageError, []⟩,
      Step.finalizeCardPair [] [], Step.inbound ⟨.ResponseIdentify, [7, 3, 9]⟩] sAllFlags).2.2.1 rfl,
   (c10_flags_monotone envV [Step.inbound ⟨.MessageError, []⟩,
      Step.finalizeCardPair [] [], Step.inbound ⟨.ResponseIdentify, [7, 3, 9]⟩] sAllFlags).2.2.2 rfl⟩

/-- No branch of the dispatch switch clears the cached certificate. -/
theorem process_remoteCertificate_isSome (env : Env) (m : Message) (s : ConnState)
    (h : s.remoteCertificate.isSome = true) :
    (process env m s).remoteCertificate.isSome = true := by
  rcases m with ⟨name, payload⟩
  cases name <;>
    simp only [process, sendCertificate, receiveCertificate, sendIdentify,
      processIdentify, processCardPair1, processFinalizeCardPair,
      processReceivePhonons] <;>
    (try split) <;> (try split) <;> simp_all

/-- The dispatch loop never clears the cached certificate. -/
theorem processMsgs_remoteCertificate_isSome (env : Env) (msgs : List Message) :
    ∀ s : ConnState, s.remoteCertificate.isSome = true →
      (processMsgs env msgs s).remoteCertificate.isSome = true := by
  induction msgs with
  | nil => intro s h; exact h
  | cons m ms ih =>
    intro s h
    exact ih _ (process_remoteCertificate_isSome env m s h)

/-- No step of an execution clears the cached certificate. -/
theorem stepState_remoteCertificate_isSome (env : Env) (s : ConnState) (st : Step)
    (h : s.remoteCertificate.isSome = true) :
    (stepState env s st).remoteCertificate.isSome = true := by
  cases st with
  | inbound m => exact process_remoteCertificate_isSome env m s h
  | identify n inbox =>
    have hs2 := processMsgs_remoteCertificate_isSome env inbox
      (sendMessage .RequestIdentify n { s with counterpartyNonce := n }) h
    simp only [stepState, Identify]
    split <;> exact hs2
  | cardPair d inbox =>
    have hs2 := processMsgs_remoteCertificate_isSome env inbox
      (sendMessage .RequestCardPair1 d s) h
    simp only [stepState, CardPair]
    split <;> exact hs2
  | finalizeCardPair d inbox =>
    have hs2 := processMsgs_remoteCertificate_isSome env inbox
      (sendMessage .RequestFinalizeCardPair d s) h
    simp only [stepState, FinalizeCardPair]
    split
    · split
      · exact hs2
      · split <;> exact hs2
    · exact h
  | getCertificate inbox =>
    simp only [stepState, GetCertificate]
    split
    · exact h
    · split
      · exact processMsgs_remoteCertificate_isSome env inbox
          (sendMessage .RequestCertificate [] s) h
      · rfl
  | connectToCard id inbox1 inbox2 =>
    simp only [stepState, ConnectToCard]
    split
    · split
      · exact processMsgs_remoteCertificate_isSome env inbox1 s h
      · rename_i hd rest heq
        have h1 := processMsgs_remoteCertificate_isSome env inbox1 s h
        have hs2 := processMsgs_remoteCertificate_isSome env inbox2
          (sendMessage .RequestConnectCard2Card id
            { processMsgs env inbox1 s with identifiedWithServerChan := rest }) h1
        split <;> exact hs2
    · have hs2 := processMsgs_remoteCertificate_isSome env inbox2
        (sendMessage .RequestConnectCard2Card id s) h
      split <;> exact hs2
  | receivePhonons d inbox =>
    have hs2 := processMsgs_remoteCertificate_isSome env inbox
      (sendMessage .RequestReceivePhonon d s) h
    simp only [stepState, ReceivePhonons]
    split <;> exact hs2

/-- An execution never clears the cached certificate. -/
theorem runSteps_remoteCertificate_isSome (env : Env) (steps : List Step) :
    ∀ s : ConnState, s.remoteCertificate.isSome = true →
      (runSteps env steps s).remoteCertificate.isSome = true := by
  induction steps with
  | nil => intro s h; exact h
  | cons st sts ih =>
    intro s h
    exact ih _ (stepState_remoteCertificate_isSome env s st h)

/-- Claim C7: `GetCertificate` is idempotent — with a cached peer
certificate it returns the cached value and leaves the state untouched
(in particular no wire request is sent); the cache is populated by the
dispatch loop on a successfully parsed certificate-response; and no step
of any execution ever invalidates the cache once set. -/
theorem c7_get_certificate_idempotent (env : Env) (inbox : List Message)
    (payload : List Nat) (c : Nat) (steps : List Step) (s : ConnState) :
    (s.remoteCertificate = some c →
      GetCertificate env inbox s = (s, Except.ok c)) ∧
    (env.parseCert payload = some c →
      (process env ⟨.ResponseCertificate, payload⟩ s).remoteCertificate = some c) ∧
    (s.remoteCertificate.isSome = true →
      (runSteps env steps s).remoteCertificate.isSome = true) := by
  refine ⟨fun h => ?_, fun h => ?_, fun h => ?_⟩
  · simp [GetCertificate, h]
  · simp [process, receiveCertificate, h]
  · exact runSteps_remoteCertificate_isSome env steps s h

/-- A connection that has cached the peer certificate 4. -/
def sCert : ConnState :=
  { initialState with remoteCertificate := some 4 }

/-- A concrete environment whose certificate parser always yields the
certificate 4. -/
def envC : Env where
  verify := fun _ _ _ => false
  parseCert := fun _ => some 4
  sessionGetCertificate := none
  sessionIdentifyCard := fun _ => none
  sessionCardPair := fun _ => none
  sessionFinalizeCardPair := fun _ => none
  sessionReceivePhonons := fun _ => none

/-- Witness for claim C7 at concrete inputs. -/
theorem c7_get_certificate_idempotent_witness :
    GetCertificate envC [] sCert = (sCert, Except.ok 4) ∧
    (process envC ⟨.ResponseCertificate, []⟩ initialState).remoteCertificate = some 4 ∧
    (runSteps envC [Step.getCertificate [], Step.inbound ⟨.MessageError, []⟩]
      sCert).remoteCertificate.isSome = true :=
  ⟨(c7_get_certificate_idempotent envC [] [] 4 [] sCert).1 rfl,
   (c7_get_certificate_idempotent envC [] [] 4 [] initialState).2.1 rfl,
   (c7_get_certificate_idempotent envC [] [] 4
      [Step.getCertificate [], Step.inbound ⟨.MessageError, []⟩] sCert).2.2 rfl⟩

/-- Witness for the amended claim C4 at concrete inputs. -/
theorem c4_finalize_binding_amended_witness :
    (process envV ⟨.RequestFinalizeCardPair, [2]⟩ initialState =
      { sendMessage .ResponseFinalizeCardPair [] initialState with
          pairFinalized := true, remoteCardBound := true }) ∧
    (process envF ⟨.RequestFinalizeCardPair, [2]⟩ initialState =
      sendMessage .ResponseFinalizeCardPair [9] initialState) ∧
    (FinalizeCardPair envV [] [] sPaired).1.remoteCardBound = true ∧
    (FinalizeCardPair envV [] [⟨.ResponseFinalizeCardPair, []⟩] initialState).1.pairFinalized
      = false :=
  ⟨(c4_finalize_binding_amended envV [2] [] [] [] initialState).1 rfl,
   (c4_finalize_binding_amended envF [2] [9] [] [] initialState).2.1 rfl,
   ((c4_finalize_binding_amended envV [] [] [] [] sPaired).2.2.1 rfl).2,
   ((c4_finalize_binding_amended envV [] [] [] [] initialState).2.2.2 rfl rfl).2.2⟩

/-- A connection already identified with the server. -/
def sIdServer : ConnState :=
  { initialState with identifiedWithServer := true }

/-- Claim C9: `ConnectToCard` first waits for the identified-with-server
notification when that flag is not yet set, returning `ErrTimeout` (state
untouched) when it does not arrive; once identified it sends a
connect-to-card request naming the card id and waits for the
connected-to-card notification, returning success when it arrives, and on
that second timeout closing the underlying stream and returning
`ErrTimeout`. -/
theorem c9_connect_to_card_behaviour (env : Env) (id : List Nat)
    (inbox2 : List Message) (s : ConnState) :
    (s.identifiedWithServer = false → s.identifiedWithServerChan = [] →
      ConnectToCard env id [] inbox2 s = (s, Except.error RemoteErr.ErrTimeout)) ∧
    (s.identifiedWithServer = true → s.connectedToCardChan = [] →
      (ConnectToCard env id [] [⟨.MessageConnectedToCard, []⟩] s).2 = Except.ok () ∧
      (ConnectToCard env id [] [⟨.MessageConnectedToCard, []⟩] s).1.sentMessages =
        s.sentMessages ++ [⟨.RequestConnectCard2Card, id⟩]) ∧
    (s.identifiedWithServer = true → s.connectedToCardChan = [] →
      (ConnectToCard env id [] [] s).2 = Except.error RemoteErr.ErrTimeout ∧
      (ConnectToCard env id [] [] s).1.streamClosed = true) ∧
    (s.identifiedWithServer = false → s.identifiedWithServerChan = [] →
      s.connectedToCardChan = [] →
      (ConnectToCard env id [⟨.MessageIdentifiedWithServer, []⟩]
        [⟨.MessageConnectedToCard, []⟩] s).2 = Except.ok ()) := by
  refine ⟨fun h hc => ?_, fun h hc => ?_, fun h hc => ?_, fun h h1 hc => ?_⟩
  · simp [ConnectToCard, h, hc]
  · simp [ConnectToCard, process, h, hc]
  · simp [ConnectToCard, h, hc]
  · simp [ConnectToCard, process, h, h1, hc]

/-- Witness for claim C9 at concrete inputs. -/
theorem c9_connect_to_card_behaviour_witness :
    ConnectToCard envV [3] [] [] initialState =
      (initialState, Except.error RemoteErr.ErrTimeout) ∧
    (ConnectToCard envV [3] [] [⟨.MessageConnectedToCard, []⟩] sIdServer).2 =
      Except.ok () ∧
    (ConnectToCard envV [3] [] [] sIdServer).1.streamClosed = true ∧
    (ConnectToCard envV [3] [⟨.MessageIdentifiedWithServer, []⟩]
      [⟨.MessageConnectedToCard, []⟩] initialState).2 = Except.ok () :=
  ⟨(c9_connect_to_card_behaviour envV [3] [] initialState).1 rfl rfl,
   ((c9_connect_to_card_behaviour envV [3] [] sIdServer).2.1 rfl rfl).1,
   ((c9_connect_to_card_behaviour envV [3] [] sIdServer).2.2.1 rfl rfl).2,
   (c9_connect_to_card_behaviour envV [3] [] initialState).2.2.2 rfl rfl rfl⟩

/-- Claim C6, counterexample: on the connected-to-card timeout,
`ConnectToCard` closes the underlying stream rather than leaving the
stream handle unchanged; and a timed-out `Identify` has overwritten the
stored nonce with the fresh one, rather than leaving the nonce
unchanged. -/
theorem c6_timeout_modifies_state :
    (ConnectToCard envV [7] [] [] sIdServer).2 = Except.error RemoteErr.ErrTimeout ∧
    sIdServer.streamClosed = false ∧
    (ConnectToCard envV [7] [] [] sIdServer).1.streamClosed = true ∧
    (Identify envV [9] [] initialState).2 = Except.error RemoteErr.ErrTimeout ∧
    initialState.counterpartyNonce ≠ [9] ∧
    (Identify envV [9] [] initialState).1.counterpartyNonce = [9] :=
  ⟨rfl, rfl, rfl, rfl, by decide, rfl⟩

/-- The connection attributes the frame claim C6 tracks beyond its
exceptions: the three flags and the cached certificate. -/
def coreView (s : ConnState) : Bool × Bool × Bool × Option Nat :=
  (s.identifiedWithServer, s.verified, s.pairFinalized, s.remoteCertificate)

/-- Claim C6 as amended: every caller-initiated exchange whose wait
window ends with no reply returns the Timeout error and leaves the flags
and the cached certificate unchanged, with the two exceptions the code
forces: `Identify` has already overwritten the stored nonce when sending
its request, and `ConnectToCard` closes the underlying stream on its
connected-to-card timeout (its identified-with-server timeout leaves the
state entirely unchanged). -/
theorem c6_timeout_frame_amended (env : Env) (s : ConnState)
    (nonce d fd pd tid : List Nat) :
    (s.remoteIdentityChan = [] →
      (Identify env nonce [] s).2 = Except.error RemoteErr.ErrTimeout ∧
      coreView (Identify env nonce [] s).1 = coreView s ∧
      (Identify env nonce [] s).1.streamClosed = s.streamClosed ∧
      (Identify env nonce [] s).1.counterpartyNonce = nonce) ∧
    (s.cardPair1DataChan = [] →
      (CardPair env d [] s).2 = Except.error RemoteErr.ErrTimeout ∧
      coreView (CardPair env d [] s).1 = coreView s ∧
      (CardPair env d [] s).1.streamClosed = s.streamClosed ∧
      (CardPair env d [] s).1.counterpartyNonce = s.counterpartyNonce) ∧
    (s.pairFinalized = false → s.finalizeCardPairDataChan = [] →
      (FinalizeCardPair env fd [] s).2 = Except.error RemoteErr.ErrTimeout ∧
      coreView (FinalizeCardPair env fd [] s).1 = coreView s ∧
      (FinalizeCardPair env fd [] s).1.streamClosed = s.streamClosed ∧
      (FinalizeCardPair env fd [] s).1.counterpartyNonce = s.counterpartyNonce) ∧
    (s.remoteCertificate = none → s.remoteCertificateChan = [] →
      (GetCertificate env [] s).2 = Except.error RemoteErr.ErrTimeout ∧
      coreView (GetCertificate env [] s).1 = coreView s ∧
      (GetCertificate env [] s).1.streamClosed = s.streamClosed ∧
      (GetCertificate env [] s).1.counterpartyNonce = s.counterpartyNonce) ∧
    (s.phononAckChan = [] →
      (ReceivePhonons env pd [] s).2 = Except.error RemoteErr.ErrTimeout ∧
      coreView (ReceivePhonons env pd [] s).1 = coreView s ∧
      (ReceivePhonons env pd [] s).1.streamClosed = s.streamClosed ∧
      (ReceivePhonons env pd [] s).1.counterpartyNonce = s.counterpartyNonce) ∧
    (s.identifiedWithServer = false → s.identifiedWithServerChan = [] →
      ConnectToCard env tid [] [] s = (s, Except.error RemoteErr.ErrTimeout)) ∧
    (s.identifiedWithServer = true → s.connectedToCardChan = [] →
      (ConnectToCard env tid [] [] s).2 = Except.error RemoteErr.ErrTimeout ∧
      coreView (ConnectToCard env tid [] [] s).1 = coreView s ∧
      (ConnectToCard env tid [] [] s).1.counterpartyNonce = s.counterpartyNonce ∧
      (ConnectToCard env tid [] [] s).1.streamClosed = true) := by
  refine ⟨fun h => ?_, fun h => ?_, fun h hc => ?_, fun h hc => ?_, fun h => ?_,
    fun h hc => ?_, fun h hc => ?_⟩
  · simp [Identify, coreView, h]
  · simp [CardPair, coreView, h]
  · simp [FinalizeCardPair, coreView, h, hc]
  · simp [GetCertificate, coreView, h, hc]
  · simp [ReceivePhonons, coreView, h]
  · simp [ConnectToCard, h, hc]
  · simp [ConnectToCard, coreView, h, hc]

/-- Witness for the amended claim C6 at concrete inputs. -/
theorem c6_timeout_frame_amended_witness :
    (Identify envV [9] [] initialState).2 = Except.error RemoteErr.ErrTimeout ∧
    (CardPair envV [] [] initialState).2 = Except.error RemoteErr.ErrTimeout ∧
    (FinalizeCardPair envV [] [] initialState).2 = Except.error RemoteErr.ErrTimeout ∧
    (GetCertificate envV [] initialState).2 = Except.error RemoteErr.ErrTimeout ∧
    (ReceivePhonons envV [] [] initialState).2 = Except.error RemoteErr.ErrTimeout ∧
    ConnectToCard envV [] [] [] initialState =
      (initialState, Except.error RemoteErr.ErrTimeout) ∧
    (ConnectToCard envV [] [] [] sIdServer).2 = Except.error RemoteErr.ErrTimeout :=
  ⟨((c6_timeout_frame_amended envV initialState [9] [] [] [] []).1 rfl).1,
   ((c6_timeout_frame_amended envV initialState [9] [] [] [] []).2.1 rfl).1,
   ((c6_timeout_frame_amended envV initialState [9] [] [] [] []).2.2.1 rfl rfl).1,
   ((c6_timeout_frame_amended envV initialState [9] [] [] [] []).2.2.2.1 rfl rfl).1,
   ((c6_timeout_frame_amended envV initialState [9] [] [] [] []).2.2.2.2.1 rfl).1,
   (c6_timeout_frame_amended envV initialState [9] [] [] [] []).2.2.2.2.2.1 rfl rfl,
   ((c6_timeout_frame_amended envV sIdServer [9] [] [] [] []).2.2.2.2.2.2 rfl rfl).1⟩

/-- A concrete environment whose session signs any nonce equal to [5]
with the key 7 and the signature (3, 4). -/
def envI : Env where
  verify := fun _ _ _ => false
  parseCert := fun _ => none
  sessionGetCertificate := none
  sessionIdentifyCard := fun n => if n = [5] then some (7, (3, 4)) else none
  sessionCardPair := fun _ => none
  sessionFinalizeCardPair := fun _ => none
  sessionReceivePhonons := fun _ => none

/-- As `envI` but with a different local public key, 9, and the same
signature. -/
def envI2 : Env where
  verify := fun _ _ _ => false
  parseCert := fun _ => none
  sessionGetCertificate := none
  sessionIdentifyCard := fun n => if n = [5] then some (9, (3, 4)) else none
  sessionCardPair := fun _ => none
  sessionFinalizeCardPair := fun _ => none
  sessionReceivePhonons := fun _ => none

/-- Claim C8, evaluated at its failing input: the responder to an
identify-request replies with only the gob encoding of the signature —
the payload carries no public key at all (two sessions differing only in
their public key produce identical responses), and the requester-side
parser `ParseIdentifyCardResponse` (modelled from the spec, which says it
yields a public key and a signature) rejects that payload. -/
theorem c8_identify_response_lacks_public_key :
    process envI ⟨.RequestIdentify, [5]⟩ initialState =
      sendMessage .ResponseIdentify (gobEncodeSignature (3, 4)) initialState ∧
    ParseIdentifyCardResponse (gobEncodeSignature (3, 4)) = none ∧
    process envI2 ⟨.RequestIdentify, [5]⟩ initialState =
      process envI ⟨.RequestIdentify, [5]⟩ initialState :=
  ⟨rfl, rfl, rfl⟩

end PhononClient

namespace BTCValidator

/-- A concrete address derivation: every key controls the single address
addrA. -/
def addrsEx : Nat → List String := fun _ => ["addrA"]

/-- One on-chain transaction paying 1 unit to addrA. -/
def txsEx : List Transaction :=
  [{ hash := "t1", inputs := [], outputs := [{ value := 1, address := "addrA" }] }]

/-- A phonon claiming the value 5 on a key whose balance is 1. -/
def phononEx : Phonon := { pubKey := 0, value := 5 }

/-- Claim C3, evaluated at its failing input: the validator accepts a
phonon claiming the value 5 although the aggregate balance controlled by
its key is only 1 — `Validate` compares the balance against zero and
never reads the claimed value, diverging from the stated
balance-at-least-claimed-value check `ValidateSpec` (and from the doc
comment on `Validate` in the source). -/
theorem c3_validate_ignores_claimed_value :
    Validate addrsEx txsEx phononEx = true ∧
    aggregateTransactions txsEx (addrsEx phononEx.pubKey) = 1 ∧
    ¬ phononEx.value ≤ aggregateTransactions txsEx (addrsEx phononEx.pubKey) ∧
    ValidateSpec addrsEx txsEx phononEx = false := by
  refine ⟨rfl, rfl, ?_, rfl⟩
  decide

end BTCValidator
